import Mathlib

/-!
Verification of the psu-bridge service (`app.py`).

The development shallowly embeds the parts of the program that the
specification talks about:

* Python/JSON scalar values (`JVal`) and dicts (`JObj`, association lists in
  insertion order, matching CPython dict semantics for lookup/update).
* Machine numbers are modelled as rationals (`ℚ`): every numeric literal the
  specification exercises is exactly representable in binary64, so binary
  rounding artifacts are below the abstraction.
* Timestamps: `_now_iso` renders `time.gmtime()` (whole seconds) as an
  ISO-8601 string; that rendering is injective and order-preserving on whole
  seconds, so it is modelled by the dedicated constructor `JVal.tstamp ⌊t⌋`
  carrying the truncated epoch second.
* Fallible Python code returns `Except PyErr`.
* Mutable dict objects are modelled by a small heap (`Heap`) where it
  matters: `save_state` receives a caller-owned dict by reference.
-/

/-- Python exceptions that the program raises or handles. -/
inductive PyErr where
  | keyError (k : String)
  | typeError
  | valueErrorFloat (s : String)
  | valueErrorRange (quantity : String) (value lo hi : ℚ)
  | connectionError
  | timeout
  | httpError (status : ℕ)
deriving DecidableEq, Repr

/-- JSON/Python scalar values appearing in state records, steps and payloads.
`tstamp t` stands for the ISO-8601 string `_now_iso` produces at epoch
second `t` (an injective, order-preserving encoding). -/
inductive JVal where
  | null
  | int (n : ℤ)
  | num (q : ℚ)
  | str (s : String)
  | tstamp (t : ℤ)
deriving DecidableEq, Repr

/-- A Python dict with scalar values, in insertion order. -/
abbrev JObj := List (String × JVal)

/-- `d[k]` lookup (first binding; our dicts have unique keys). -/
def dictGet (d : JObj) (k : String) : Option JVal :=
  match d.find? (fun p => p.1 = k) with
  | some p => some p.2
  | none => none

/-- `d[k] = v`: replace in place if the key exists, else append (CPython
dict update semantics, insertion order preserved). -/
def dictSet : JObj → String → JVal → JObj
  | [], k, v => [(k, v)]
  | (k', v') :: rest, k, v =>
    if k' = k then (k, v) :: rest else (k', v') :: dictSet rest k v

/-- `d.setdefault(k, v)`: insert only when the key is absent. -/
def setdefaultD (d : JObj) (k : String) (v : JVal) : JObj :=
  if (dictGet d k).isSome then d else d ++ [(k, v)]

/-- All characters are ASCII digits. -/
def allDigits (cs : List Char) : Bool := cs.all Char.isDigit

/-- Decimal digit string to a natural number. -/
def digitsToNat (cs : List Char) : ℕ := cs.foldl (fun a c => a * 10 + (c.toNat - 48)) 0

/-- Unsigned decimal literal `digits[.digits]` / `.digits`, as accepted by
Python `float()` (exponent/inf/nan/underscore forms are outside this model;
no claim exercises them). -/
def parseUnsigned (cs : List Char) : Option ℚ :=
  if '.' ∈ cs then
    let ip := cs.takeWhile (fun c => c ≠ '.')
    let fp := (cs.dropWhile (fun c => c ≠ '.')).drop 1
    if '.' ∈ fp then none
    else if (0 < ip.length ∨ 0 < fp.length) ∧ allDigits ip ∧ allDigits fp then
      some ((digitsToNat ip : ℚ) + (digitsToNat fp : ℚ) / 10 ^ fp.length)
    else none
  else if 0 < cs.length ∧ allDigits cs then some (digitsToNat cs) else none

/-- Signed decimal literal for Python `float(str)`. -/
def parsePyFloat (s : String) : Option ℚ :=
  match s.data with
  | '-' :: rest => (parseUnsigned rest).map Neg.neg
  | '+' :: rest => parseUnsigned rest
  | cs => parseUnsigned cs

/-- Python `float(v)` on a scalar: numbers convert, parseable strings parse,
everything else raises (`TypeError` for `None`, `ValueError` for bad
strings — `tstamp` stands for an ISO string, which never parses). -/
def pyFloat : JVal → Except PyErr ℚ
  | .num q => .ok q
  | .int n => .ok (n : ℚ)
  | .str s =>
    match parsePyFloat s with
    | some q => .ok q
    | none => .error (.valueErrorFloat s)
  | .null => .error .typeError
  | .tstamp _ => .error (.valueErrorFloat "iso-timestamp")

/-- CPython rounding of a scaled value to an integer: round half to even. -/
def pyRound (q : ℚ) : ℤ :=
  if q - ⌊q⌋ < 1 / 2 then ⌊q⌋
  else if 1 / 2 < q - ⌊q⌋ then ⌊q⌋ + 1
  else if ⌊q⌋ % 2 = 0 then ⌊q⌋ else ⌊q⌋ + 1

/-- Render the integer `n` (a value scaled by `10 ^ d`) with `d` decimal
places, e.g. `decimalString 540 1 = "54.0"`. -/
def decimalString (n : ℤ) (d : ℕ) : String :=
  let sign := if n < 0 then "-" else ""
  let m := n.natAbs
  let ip := m / 10 ^ d
  let fp := m % 10 ^ d
  let fpStr := toString fp
  let pad := String.mk (List.replicate (d - fpStr.length) '0')
  if d = 0 then sign ++ toString ip else sign ++ toString ip ++ "." ++ pad ++ fpStr

/-- Python `f"{q:.df}"` fixed-point formatting (on exactly representable
values; the sign of a negative zero is below this abstraction). -/
def formatFixed (q : ℚ) (d : ℕ) : String := decimalString (pyRound (q * 10 ^ d)) d

/-- Fewest decimal places displaying `q` exactly (capped), for `str(float)`. -/
def floatDecimals (q : ℚ) : ℕ :=
  ((List.range 18).find? (fun d => (q * 10 ^ d).den = 1)).getD 17

/-- Python `str(float)` shortest-roundtrip rendering, abstracted to minimal
exact decimals with at least one fractional digit. -/
def pyStrFloat (q : ℚ) : String := formatFixed q (max 1 (floatDecimals q))

/-- Python `str(v)` on the scalars the program passes to it. -/
def pyStr : JVal → String
  | .null => "None"
  | .int n => toString n
  | .num q => pyStrFloat q
  | .str s => s
  | .tstamp t => "ts:" ++ toString t

/-! Configuration constants of `app.py` (lines 26-31). `BALANCED_AMP_ENV`
comes from the environment, so functions that read it take it as an
argument. -/

def VOLT_MIN : ℚ := 0
def VOLT_MAX : ℚ := 100
def CURR_MIN : ℚ := 0
def CURR_MAX : ℚ := 50

/-- `_clamp_balanced_amp` (line 65): clamp into `[1, 5]`. -/
def _clamp_balanced_amp (v : ℚ) : ℚ := max 1 (min 5 v)

/-- `validate_params` (lines 120-124): exclusive lower bounds, inclusive
upper bounds; the `ValueError` message names the offending quantity, its
value and the legal interval, which the error value carries verbatim. -/
def validate_params (voltage max_current : ℚ) : Except PyErr Unit :=
  if ¬(VOLT_MIN < voltage ∧ voltage ≤ VOLT_MAX) then
    .error (.valueErrorRange "Voltage" voltage VOLT_MIN VOLT_MAX)
  else if ¬(CURR_MIN < max_current ∧ max_current ≤ CURR_MAX) then
    .error (.valueErrorRange "Current" max_current CURR_MIN CURR_MAX)
  else .ok ()

/-- `payload_for_device` (lines 126-143), with the configured
`BALANCED_AMP_ENV` passed explicitly. `str(access or "0")` on the string
`access` yields `"0"` exactly when `access` is empty. -/
def payload_for_device (balancedAmpEnv : ℚ) (voltage max_current : ℚ) (access : String) : JObj :=
  let balanced_amp := _clamp_balanced_amp balancedAmpEnv
  [("voltageValue", .str (formatFixed voltage 1)),
   ("currentValue", .str (formatFixed max_current 2)),
   ("accessibilityStatus", .str (if access = "" then "0" else access)),
   ("balancedVoltage", .str (formatFixed voltage 1)),
   ("balancedCurrent", .str (formatFixed balanced_amp 1)),
   ("mode", .str "2")]

/-! ### State store (lines 61-113)

Python dicts are mutable objects passed by reference; where that matters
(`save_state` receives a caller-owned dict and must not mutate it) we model
the object store by a small heap: a reference is an index into the list of
allocated dict objects. -/

structure Heap where
  objs : List JObj
deriving DecidableEq, Repr

/-- Dereference (out-of-range references read as the empty dict; all uses
stay in range). -/
def Heap.get (h : Heap) (r : ℕ) : JObj := h.objs.getD r []

/-- Overwrite the object behind reference `r`. -/
def Heap.setObj (h : Heap) (r : ℕ) (d : JObj) : Heap := ⟨h.objs.set r d⟩

/-- Allocate a fresh dict object, returning its reference. -/
def Heap.alloc (h : Heap) (d : JObj) : Heap × ℕ := (⟨h.objs ++ [d]⟩, h.objs.length)

/-- The module-level store state: the durable file (`STATE_FILE`) plus the
globals `_state_cache` (line 62) and `_cache_time` (line 63).
`fileContents = none` models a missing `STATE_FILE`. -/
structure StoreState where
  fileContents : Option JObj
  cache : JObj
  cacheTime : ℚ
deriving DecidableEq, Repr

/-- `save_state` (lines 100-113). The caller's dict arrives by reference
`r`; `tmp = state.copy()` (line 102) allocates a fresh object and the
timestamp lands on `tmp` only. `t1` is the clock at `_now_iso()`
(line 103, whole-second ISO stamp, hence `⌊t1⌋`), `t2` the clock at the
`_cache_time` update (line 113). `json.dump` under the exclusive lock
replaces the whole file contents — this is the sequential (non-interleaved)
view; the step-level write path is modelled separately for the concurrency
claim. -/
def save_state (t1 t2 : ℚ) (h : Heap) (_st : StoreState) (r : ℕ) : Heap × StoreState :=
  let hr := h.alloc (h.get r)
  let h2 := hr.1.setObj hr.2 (dictSet (hr.1.get hr.2) "updated_at" (.tstamp ⌊t1⌋))
  let tmp := h2.get hr.2
  (h2, { fileContents := some tmp, cache := tmp, cacheTime := t2 })

/-- The all-default record synthesized on first run (line 79). -/
def defaultRecord : JObj :=
  [("voltage", .null), ("max_current", .null), ("access", .str "0"), ("updated_at", .null)]

/-- The minimal-validation loop of `load_state` (lines 93-94): backfill each
of the four keys, `"0"` for `access`, `None` otherwise. -/
def setdefault4 (d : JObj) : JObj :=
  setdefaultD (setdefaultD (setdefaultD (setdefaultD d "voltage" .null)
    "max_current" .null) "access" (.str "0")) "updated_at" .null

/-- `load_state` (lines 71-98). `now` is `time.time()` at line 74; `t1`, `t2`
are the clock readings of the bootstrap `save_state` call (line 80) when that
branch is taken. Returns the updated heap, the updated globals, and a
reference to the returned dict (always a defensive copy, lines 76/83/98). -/
def load_state (now t1 t2 : ℚ) (h : Heap) (st : StoreState) : Heap × StoreState × ℕ :=
  if now - st.cacheTime < 1 ∧ st.cache ≠ [] then
    let hr := h.alloc st.cache
    (hr.1, st, hr.2)
  else
    match st.fileContents with
    | none =>
      let hs := h.alloc defaultRecord
      let hst := save_state t1 t2 hs.1 st hs.2
      let st2 := { hst.2 with cache := hst.1.get hs.2, cacheTime := now }
      let hr := hst.1.alloc (hst.1.get hs.2)
      (hr.1, st2, hr.2)
    | some data =>
      let data2 := setdefault4 data
      let hr := h.alloc data2
      (hr.1, { st with cache := data2, cacheTime := now }, hr.2)

instance instDecEqExcept {ε α : Type} [DecidableEq ε] [DecidableEq α] :
    DecidableEq (Except ε α) := fun a b =>
  match a, b with
  | .error e, .error f =>
    if h : e = f then .isTrue (congrArg Except.error h)
    else .isFalse (fun hh => h (Except.error.inj hh))
  | .error _, .ok _ => .isFalse (fun hh => Except.noConfusion hh)
  | .ok _, .error _ => .isFalse (fun hh => Except.noConfusion hh)
  | .ok a, .ok b =>
    if h : a = b then .isTrue (congrArg Except.ok h)
    else .isFalse (fun hh => h (Except.ok.inj hh))

/-! ### Device client retries (lines 162-182, tenacity 8.x semantics) -/

/-- Outcome of one raw HTTP attempt of the wrapped body: a value, or a
raised exception (`ConnectionError`/`Timeout` from the transport, or
`HTTPError` from `raise_for_status()` when a response with a non-2xx
status was received). -/
inductive AttemptResult (α : Type) where
  | ok (v : α)
  | exn (e : PyErr)
deriving DecidableEq, Repr

/-- Observable trace of one logical device call: how many attempts ran, the
sleeps between them, and the final outcome. -/
structure RetryTrace (α : Type) where
  attemptsMade : ℕ
  waits : List ℚ
  result : Except PyErr α
deriving DecidableEq, Repr

/-- `retry_if_exception_type((requests.exceptions.ConnectionError,
requests.exceptions.Timeout))` (lines 166, 177). -/
def retryableExc : PyErr → Bool
  | .connectionError => true
  | .timeout => true
  | _ => false

/-- tenacity `wait_exponential(multiplier, min, max)` evaluated after the
`n`-th attempt failed: `max(max(0, min), min(multiplier * 2^(n-1), max))`. -/
def wait_exponential (multiplier mn mx : ℚ) (n : ℕ) : ℚ :=
  max (max 0 mn) (min (multiplier * 2 ^ (n - 1)) mx)

/-- The wait configured on both `psu_get` and `psu_post` (lines 165, 176):
`wait_exponential(multiplier=0.5, min=0.5, max=2)`. -/
def psuWait (n : ℕ) : ℚ := wait_exponential (1 / 2) (1 / 2) 2 n

/-- tenacity driver under `stop_after_attempt`/`reraise=True`: `fuel` is the
number of attempts still allowed, `n` the current attempt number and
`attempt n` the outcome of the `n`-th run of the wrapped body. A failure
matching the retry predicate is retried after `wait n` seconds while
attempts remain; the final attempt's outcome — a value, a non-retryable
exception, or the last retryable failure once attempts are exhausted — is
returned or re-raised unchanged (`fut.result()` / `retry_exc.reraise()`).
The `fuel = 0` case is unreachable for any positive stop bound. -/
def retryLoop {α : Type} (attempt : ℕ → AttemptResult α) (wait : ℕ → ℚ) :
    ℕ → ℕ → RetryTrace α
  | 0, n => ⟨n, [], .error .timeout⟩
  | 1, n =>
    match attempt n with
    | .ok v => ⟨n, [], .ok v⟩
    | .exn e => ⟨n, [], .error e⟩
  | f + 2, n =>
    match attempt n with
    | .ok v => ⟨n, [], .ok v⟩
    | .exn e =>
      if retryableExc e then
        let t := retryLoop attempt wait (f + 1) (n + 1)
        ⟨t.attemptsMade, wait n :: t.waits, t.result⟩
      else ⟨n, [], .error e⟩

/-- One logical `psu_get`/`psu_post` call (lines 162-182):
`stop_after_attempt(3)` with the configured wait, first attempt number 1. -/
def psuCall {α : Type} (attempt : ℕ → AttemptResult α) : RetryTrace α :=
  retryLoop attempt psuWait 3 1

/-! ### Sequence executor (lines 299-342) -/

/-- External collaborators and configuration of the executor: the net
result of `psu_post` for a given payload (the retrying client of lines
173-182, already exhausted), the monotone stream of clock readings, and the
configured `BALANCED_AMP`. -/
structure ExecEnv where
  post : JObj → Except PyErr String
  clk : ℕ → ℚ
  balancedAmpEnv : ℚ

/-- Module state threaded through a request: the dict heap, the store
(file + cache globals), plus observation traces — every payload handed to
`psu_post` and every pair handed to `validate_params`, in order — and the
number of clock readings consumed. -/
structure ExecSt where
  heap : Heap
  store : StoreState
  posted : List JObj
  validated : List (ℚ × ℚ)
  tick : ℕ
deriving DecidableEq, Repr

/-- One entry of the `results` trace: `{"step": idx, "sent": payload,
"psu_response": resp, "ok": True}` on success (line 331) or
`{"step": idx, "error": str(e), "ok": False}` on failure (line 334); the
failure entry carries the exception value rather than its rendered
message. -/
structure StepResult where
  step : ℕ
  ok : Bool
  sent : Option JObj
  psu_response : Option String
  error : Option PyErr
deriving DecidableEq, Repr

def mkOkEntry (idx : ℕ) (payload : JObj) (resp : String) : StepResult :=
  ⟨idx, true, some payload, some resp, none⟩

def mkFailEntry (idx : ℕ) (e : PyErr) : StepResult :=
  ⟨idx, false, none, none, some e⟩

/-- `float(step[k])`: `KeyError` when the key is missing, else `float`
conversion (lines 323-324). -/
def stepFloat (step : JObj) (k : String) : Except PyErr ℚ :=
  match dictGet step k with
  | none => .error (.keyError k)
  | some v => pyFloat v

/-- `float(step.get("delay", 0))` (line 338) — note: evaluated outside the
`try`/`except` of the step. -/
def stepDelay (step : JObj) : Except PyErr ℚ :=
  pyFloat ((dictGet step "delay").getD (.int 0))

/-- Body of the `try` block for one step (lines 322-331): parse fields,
validate, build the payload, post it, persist the new state and produce the
success entry; a raised exception is returned on the left, as the value the
`except` clause catches. -/
def tryStep (env : ExecEnv) (idx : ℕ) (step : JObj) (s : ExecSt) :
    ExecSt × (PyErr ⊕ StepResult) :=
  match stepFloat step "voltage" with
  | .error e => (s, .inl e)
  | .ok v =>
    match stepFloat step "max_current" with
    | .error e => (s, .inl e)
    | .ok i =>
      let a := pyStr ((dictGet step "access").getD (.str "0"))
      let s1 := { s with validated := s.validated ++ [(v, i)] }
      match validate_params v i with
      | .error e => (s1, .inl e)
      | .ok _ =>
        let payload := payload_for_device env.balancedAmpEnv v i a
        let s2 := { s1 with posted := s1.posted ++ [payload] }
        match env.post payload with
        | .error e => (s2, .inl e)
        | .ok resp =>
          let hs := s2.heap.alloc
            [("voltage", .num v), ("max_current", .num i), ("access", .str a)]
          let hst := save_state (env.clk s2.tick) (env.clk (s2.tick + 1)) hs.1 s2.store hs.2
          let s3 := { s2 with heap := hst.1, store := hst.2, tick := s2.tick + 2 }
          (s3, .inr (mkOkEntry idx payload resp))

/-- The `for idx, step in enumerate(seq, start=1)` loop (lines 321-340).
Returns the final module state and either the `results` list (a caught
failure appends its entry and breaks) or an exception that escaped the
loop — only the delay conversion of a successful step can raise one, since
it sits outside the `try` block. `time.sleep(min(delay, 10))` has no
observable effect in this model. -/
def runSeq (env : ExecEnv) : List JObj → ℕ → ExecSt → ExecSt × Except PyErr (List StepResult)
  | [], _, s => (s, .ok [])
  | step :: rest, idx, s =>
    match tryStep env idx step s with
    | (s1, .inl e) => (s1, .ok [mkFailEntry idx e])
    | (s1, .inr entry) =>
      match stepDelay step with
      | .error e => (s1, .error e)
      | .ok _ =>
        match runSeq env rest (idx + 1) s1 with
        | (s2, .ok entries) => (s2, .ok (entry :: entries))
        | (s2, .error e) => (s2, .error e)

/-- The request's `sequence` field after `body.get("sequence") or []`
(line 314): either a truthy non-list value, or a list of step dicts (all
claims use dict steps; a non-dict step would fail inside the step `try`
like any other bad step). -/
inductive BodySeq where
  | notList (v : JVal)
  | steps (l : List JObj)

/-- Response of `POST /set_sequence`: a 400 rejection, the normal
`{"results": ..., "state": ...}` body, or an exception that escaped the
handler (an empty 500, no results). -/
inductive SeqResponse where
  | badRequest (msg : String)
  | ok (results : List StepResult) (state : JObj)
  | unhandled (e : PyErr)
deriving DecidableEq, Repr

/-- `set_sequence` (lines 299-342) from the extracted `sequence` value on:
the list / size guards (lines 315-318), the step loop, and the final
`jsonify({"results": results, "state": load_state()})` (line 342). -/
def set_sequence (env : ExecEnv) (s0 : ExecSt) (body : BodySeq) : ExecSt × SeqResponse :=
  match body with
  | .notList _ => (s0, .badRequest "sequence must be a list")
  | .steps seq =>
    if seq.length > 10 then (s0, .badRequest "Max 10 steps allowed")
    else
      match runSeq env seq 1 s0 with
      | (s1, .error e) => (s1, .unhandled e)
      | (s1, .ok results) =>
        let lr := load_state (env.clk s1.tick) (env.clk (s1.tick + 1)) (env.clk (s1.tick + 2))
          s1.heap s1.store
        ({ s1 with heap := lr.1, store := lr.2.1, tick := s1.tick + 3 },
          .ok results (lr.1.get lr.2.2))

/-! ### Interleaved view of the durable file (for the locking claim)

The sequential model above treats a save as an atomic replacement of the
file contents. For the concurrency claim the write path is refined to its
actual steps, because `STATE_FILE.open("w")` (line 104) truncates the file
at `open` time — before `flock(LOCK_EX)` can be acquired on the resulting
descriptor (line 105). -/

/-- Byte-level states of `STATE_FILE` visible to a reader: freshly
truncated by `open("w")`, or holding one complete JSON record. -/
inductive FileText where
  | truncated
  | record (d : JObj)
deriving DecidableEq, Repr

/-- One writer (`save_state`, lines 104-109) and one reader (`load_state`
file branch, lines 85-90) sharing `STATE_FILE` under advisory `flock`
semantics: `LOCK_EX` is granted only with no other lock held, `LOCK_SH`
only with no exclusive lock held, and `open` itself needs no lock.
Program counters — writer: 0 `open("w")` (truncates), 1 `flock(LOCK_EX)`,
2 `json.dump`, 3 `flock(LOCK_UN)`; reader: 0 `open("r")`,
1 `flock(LOCK_SH)`, 2 `json.load` (records what it sees), 3
`flock(LOCK_UN)`. -/
structure FileRace where
  file : FileText
  sharedLocks : ℕ
  exclLock : Bool
  wpc : ℕ
  rpc : ℕ
  observed : Option FileText
deriving DecidableEq, Repr

def wStep (new : JObj) (s : FileRace) : FileRace :=
  match s.wpc with
  | 0 => { s with file := .truncated, wpc := 1 }
  | 1 =>
    if s.sharedLocks = 0 ∧ s.exclLock = false then { s with exclLock := true, wpc := 2 }
    else s
  | 2 => { s with file := .record new, wpc := 3 }
  | 3 => { s with exclLock := false, wpc := 4 }
  | _ => s

def rStep (s : FileRace) : FileRace :=
  match s.rpc with
  | 0 => { s with rpc := 1 }
  | 1 =>
    if s.exclLock = false then { s with sharedLocks := s.sharedLocks + 1, rpc := 2 }
    else s
  | 2 => { s with observed := some s.file, rpc := 3 }
  | 3 => { s with sharedLocks := s.sharedLocks - 1, rpc := 4 }
  | _ => s

/-- Run a schedule: `true` steps the writer, `false` the reader; a process
whose `flock` is blocked simply stays put (it is waiting). -/
def runSched (new : JObj) : List Bool → FileRace → FileRace
  | [], s => s
  | b :: rest, s => runSched new rest (if b then wStep new s else rStep s)

/-! ## Helper lemmas -/

theorem dictGet_dictSet_self (d : JObj) (k : String) (v : JVal) :
    dictGet (dictSet d k v) k = some v := by
  induction d with
  | nil => simp [dictSet, dictGet]
  | cons p rest ih =>
    by_cases h : p.1 = k
    · simp [dictSet, dictGet, h]
    · simp only [dictSet, if_neg h]
      simpa [dictGet, List.find?_cons, h] using ih

theorem dictGet_dictSet_ne (d : JObj) (k k' : String) (v : JVal) (hne : k' ≠ k) :
    dictGet (dictSet d k v) k' = dictGet d k' := by
  induction d with
  | nil => simp [dictSet, dictGet, List.find?_cons, Ne.symm hne]
  | cons p rest ih =>
    by_cases h : p.1 = k
    · simp [dictSet, dictGet, List.find?_cons, h, Ne.symm hne, hne]
    · simp only [dictSet, if_neg h]
      by_cases h2 : p.1 = k'
      · simp [dictGet, List.find?_cons, h2]
      · simpa [dictGet, List.find?_cons, h2] using ih

theorem dictSet_ne_nil (d : JObj) (k : String) (v : JVal) : dictSet d k v ≠ [] := by
  cases d with
  | nil => simp [dictSet]
  | cons p rest =>
    by_cases h : p.1 = k <;> simp [dictSet, h]

theorem Heap.get_alloc_new (h : Heap) (d : JObj) : (h.alloc d).1.get (h.alloc d).2 = d := by
  simp [Heap.alloc, Heap.get, List.getD, List.getElem?_concat_length]

theorem Heap.get_alloc_old (h : Heap) (d : JObj) (r : ℕ) (hr : r < h.objs.length) :
    (h.alloc d).1.get r = h.get r := by
  simp only [Heap.alloc, Heap.get, List.getD_eq_getElem?_getD]
  rw [List.getElem?_append_left hr]

theorem Heap.alloc_length (h : Heap) (d : JObj) :
    (h.alloc d).1.objs.length = h.objs.length + 1 := by
  simp [Heap.alloc]

theorem Heap.get_setObj_self (h : Heap) (r : ℕ) (d : JObj) (hr : r < h.objs.length) :
    (h.setObj r d).get r = d := by
  simp [Heap.setObj, Heap.get, List.getD, List.getElem?_set_eq_of_lt d hr]

theorem Heap.get_setObj_ne (h : Heap) (r r' : ℕ) (d : JObj) (hne : r ≠ r') :
    (h.setObj r d).get r' = h.get r' := by
  simp [Heap.setObj, Heap.get, List.getD, List.getElem?_set_ne hne]

theorem Heap.setObj_length (h : Heap) (r : ℕ) (d : JObj) :
    (h.setObj r d).objs.length = h.objs.length := by
  simp [Heap.setObj]

/-- Net effect of `save_state` on the globals: the stamped copy of the
caller's record becomes both the file contents and the cache. -/
theorem save_state_store (t1 t2 : ℚ) (h : Heap) (st : StoreState) (r : ℕ) :
    (save_state t1 t2 h st r).2 =
      ⟨some (dictSet (h.get r) "updated_at" (.tstamp ⌊t1⌋)),
       dictSet (h.get r) "updated_at" (.tstamp ⌊t1⌋), t2⟩ := by
  unfold save_state
  have h1 : (h.alloc (h.get r)).1.get (h.alloc (h.get r)).2 = h.get r :=
    Heap.get_alloc_new h (h.get r)
  have h2 : (h.alloc (h.get r)).2 < (h.alloc (h.get r)).1.objs.length := by
    simp [Heap.alloc]
  simp [h1, Heap.get_setObj_self _ _ _ h2]

/-- `save_state` leaves every pre-existing heap object untouched: the only
mutation targets the fresh copy `tmp`. -/
theorem save_state_heap_get (t1 t2 : ℚ) (h : Heap) (st : StoreState) (r r' : ℕ)
    (hr' : r' < h.objs.length) :
    (save_state t1 t2 h st r).1.get r' = h.get r' := by
  unfold save_state
  have hne : (h.alloc (h.get r)).2 ≠ r' := by
    simp only [Heap.alloc]
    omega
  rw [Heap.get_setObj_ne _ _ _ _ hne, Heap.get_alloc_old _ _ _ hr']

theorem save_state_heap_length (t1 t2 : ℚ) (h : Heap) (st : StoreState) (r : ℕ) :
    (save_state t1 t2 h st r).1.objs.length = h.objs.length + 1 := by
  unfold save_state
  simp [Heap.setObj_length, Heap.alloc_length]

/-! ## Claims -/

/-- C10: `save_state` never mutates the record passed to it by the caller:
every pre-existing heap object — in particular the caller's dict — is
unchanged after the call, so the caller's record gains no `updated_at`
stamp; the timestamp is written only into the copied record that is
persisted and cached. -/
theorem C10_save_state_no_caller_mutation (t1 t2 : ℚ) (h : Heap) (st : StoreState)
    (r r' : ℕ) (hr' : r' < h.objs.length) :
    (save_state t1 t2 h st r).1.get r' = h.get r'
    ∧ dictGet ((save_state t1 t2 h st r).1.get r') "updated_at"
        = dictGet (h.get r') "updated_at"
    ∧ (save_state t1 t2 h st r).2.fileContents
        = some (dictSet (h.get r) "updated_at" (.tstamp ⌊t1⌋))
    ∧ (save_state t1 t2 h st r).2.cache
        = dictSet (h.get r) "updated_at" (.tstamp ⌊t1⌋) := by
  refine ⟨save_state_heap_get t1 t2 h st r r' hr', ?_, ?_, ?_⟩
  · rw [save_state_heap_get t1 t2 h st r r' hr']
  · rw [save_state_store]
  · rw [save_state_store]

/-- Witness for C10 at a concrete heap holding one record without an
`updated_at` key. -/
theorem C10_witness :
    0 < (Heap.mk [[("voltage", JVal.num 54)]]).objs.length
    ∧ (save_state 7 7 ⟨[[("voltage", JVal.num 54)]]⟩ ⟨none, [], 0⟩ 0).1.get 0
        = [("voltage", JVal.num 54)] :=
  ⟨by decide,
   by
    rw [(C10_save_state_no_caller_mutation 7 7 ⟨[[("voltage", JVal.num 54)]]⟩
      ⟨none, [], 0⟩ 0 0 (by decide)).1]
    decide⟩

/-- C4: `validate_params` succeeds exactly when the voltage lies in
`(VOLT_MIN, VOLT_MAX] = (0, 100]` and the current in
`(CURR_MIN, CURR_MAX] = (0, 50]`; on violation it fails with an error
naming the violated quantity and the legal interval; and in the executor a
device call can only happen after `validate_params` succeeded on the
step's values (validation precedes any device I/O). -/
theorem C4_validate_params_ranges (v i : ℚ) :
    (validate_params v i = .ok () ↔ (0 < v ∧ v ≤ 100) ∧ (0 < i ∧ i ≤ 50))
    ∧ (¬(0 < v ∧ v ≤ 100) →
        validate_params v i = .error (.valueErrorRange "Voltage" v 0 100))
    ∧ ((0 < v ∧ v ≤ 100) → ¬(0 < i ∧ i ≤ 50) →
        validate_params v i = .error (.valueErrorRange "Current" i 0 50))
    ∧ (∀ (env : ExecEnv) (idx : ℕ) (step : JObj) (s : ExecSt),
        (tryStep env idx step s).1.posted = s.posted
        ∨ ∃ v2 i2, stepFloat step "voltage" = .ok v2
            ∧ stepFloat step "max_current" = .ok i2
            ∧ validate_params v2 i2 = .ok ()
            ∧ (tryStep env idx step s).1.posted = s.posted
                ++ [payload_for_device env.balancedAmpEnv v2 i2
                      (pyStr ((dictGet step "access").getD (.str "0")))]) := by
  refine ⟨?_, ?_, ?_, ?_⟩
  · unfold validate_params VOLT_MIN VOLT_MAX CURR_MIN CURR_MAX
    split_ifs with h1 h2
    · simp [h1, h2]
    · simp [h2]
    · simp [h1]
  · intro hnv
    unfold validate_params VOLT_MIN VOLT_MAX CURR_MIN CURR_MAX
    split_ifs
    rfl
  · intro hv hni
    unfold validate_params VOLT_MIN VOLT_MAX CURR_MIN CURR_MAX
    split_ifs
    rfl
  · intro env idx step s
    cases hv2 : stepFloat step "voltage" with
    | error e => left; simp [tryStep, hv2]
    | ok v2 =>
      cases hi2 : stepFloat step "max_current" with
      | error e => left; simp [tryStep, hv2, hi2]
      | ok i2 =>
        cases hval : validate_params v2 i2 with
        | error e => left; simp [tryStep, hv2, hi2, hval]
        | ok u =>
          cases u
          right
          refine ⟨v2, i2, rfl, rfl, hval, ?_⟩
          cases hpost : env.post (payload_for_device env.balancedAmpEnv v2 i2
              (pyStr ((dictGet step "access").getD (.str "0")))) with
          | error e => simp [tryStep, hv2, hi2, hval, hpost]
          | ok resp => simp [tryStep, hv2, hi2, hval, hpost]

/-- Witness for C4 at voltage 54 V, current 6 A (both legal). -/
theorem C4_witness :
    validate_params 54 6 = .ok ()
    ∧ ((0:ℚ) < 54 ∧ (54:ℚ) ≤ 100) ∧ ((0:ℚ) < 6 ∧ (6:ℚ) ≤ 50) :=
  ⟨((C4_validate_params_ranges 54 6).1).mpr (by norm_num), by norm_num⟩

/-- C5: the payload builder is a pure function of
`(voltage, max_current, access)` and the configured balanced-amp constant;
at the default constant 1.0, `payload_for_device 1 54 6 "1"` is exactly the
documented wire object, and for every configured constant the emitted
`balancedCurrent` is the constant clamped into `[1, 5]` and formatted —
never rejected. -/
theorem C5_payload_builder :
    payload_for_device 1 54 6 "1" =
      [("voltageValue", .str "54.0"), ("currentValue", .str "6.00"),
       ("accessibilityStatus", .str "1"), ("balancedVoltage", .str "54.0"),
       ("balancedCurrent", .str "1.0"), ("mode", .str "2")]
    ∧ (∀ c : ℚ, 1 ≤ _clamp_balanced_amp c ∧ _clamp_balanced_amp c ≤ 5)
    ∧ (∀ (c v i : ℚ) (a : String),
        dictGet (payload_for_device c v i a) "balancedCurrent"
          = some (.str (formatFixed (_clamp_balanced_amp c) 1))) := by
  refine ⟨?_, ?_, ?_⟩
  · norm_num [payload_for_device, _clamp_balanced_amp, formatFixed, pyRound]
    decide
  · intro c
    exact ⟨le_max_left _ _, max_le (by norm_num) (min_le_left _ _)⟩
  · intro c v i a
    simp [payload_for_device, dictGet, List.find?_cons]

/-- C6: a sequence of more than 10 steps is rejected with the 400 response
before any step executes: the module state (heap, store, posted payloads,
validation trace) is returned exactly as it was. -/
theorem C6_sequence_cap (env : ExecEnv) (s0 : ExecSt) (seq : List JObj)
    (hlen : seq.length > 10) :
    set_sequence env s0 (.steps seq) = (s0, .badRequest "Max 10 steps allowed") := by
  simp [set_sequence, hlen]

/-- Witness for C6 with an 11-step sequence. -/
theorem C6_witness :
    (List.replicate 11 ([] : JObj)).length > 10
    ∧ set_sequence ⟨fun _ => .ok "", fun _ => 0, 1⟩ ⟨⟨[]⟩, ⟨none, [], 0⟩, [], [], 0⟩
        (.steps (List.replicate 11 [])) =
      (⟨⟨[]⟩, ⟨none, [], 0⟩, [], [], 0⟩, .badRequest "Max 10 steps allowed") :=
  ⟨by decide, C6_sequence_cap _ _ _ (by decide)⟩

/-- C9: the no-torn-read guarantee fails in the code: `STATE_FILE.open("w")`
truncates the file before `flock(LOCK_EX)` can be taken on the descriptor
(line 104 vs 105), so a reader legally holding `LOCK_SH` throughout can
observe the truncated file — neither the complete previous record nor the
complete new one — and a crash right after `open("w")` leaves the
previously durable record destroyed. Schedule: reader opens, reader takes
`LOCK_SH`, writer opens (truncates), reader reads. -/
theorem C9_truncation_defeats_lock :
    (runSched [("voltage", JVal.num 2)] [false, false, true, false]
        ⟨.record [("voltage", JVal.num 1)], 0, false, 0, 0, none⟩).observed
      = some .truncated
    ∧ (runSched [("voltage", JVal.num 2)] [false, false, true, false]
        ⟨.record [("voltage", JVal.num 1)], 0, false, 0, 0, none⟩).sharedLocks = 1
    ∧ FileText.truncated ≠ .record [("voltage", JVal.num 1)]
    ∧ FileText.truncated ≠ .record [("voltage", JVal.num 2)]
    ∧ (runSched [("voltage", JVal.num 2)] [true]
        ⟨.record [("voltage", JVal.num 1)], 0, false, 0, 0, none⟩).file = .truncated := by
  refine ⟨?_, ?_, ?_, ?_, ?_⟩ <;> decide

/-! Wait-schedule facts for the device client. -/

theorem psuWait_eq (n : ℕ) : psuWait n = min ((1 / 2) * 2 ^ (n - 1)) 2 := by
  have h1 : (1 : ℚ) ≤ 2 ^ (n - 1) := one_le_pow₀ (by norm_num)
  unfold psuWait wait_exponential
  rw [show max (0:ℚ) (1/2) = 1/2 by norm_num, max_eq_right]
  exact le_min (by linarith) (by norm_num)

theorem psuWait_one : psuWait 1 = 1 / 2 := by norm_num [psuWait, wait_exponential]

theorem psuWait_two : psuWait 2 = 1 := by norm_num [psuWait, wait_exponential]

theorem psuWait_le_two (n : ℕ) : psuWait n ≤ 2 :=
  max_le (by norm_num [psuWait, wait_exponential]) (min_le_right _ _)

theorem psuWait_doubling (n : ℕ) (hn : 1 ≤ n) : psuWait (n + 1) = min (2 * psuWait n) 2 := by
  rw [psuWait_eq n, psuWait_eq (n + 1),
    mul_min_of_nonneg _ _ (by norm_num : (0:ℚ) ≤ 2), min_assoc,
    show min ((2:ℚ) * 2) 2 = 2 by norm_num,
    show n + 1 - 1 = (n - 1) + 1 by omega, pow_succ,
    show (1/2 : ℚ) * (2 ^ (n-1) * 2) = 2 * (1/2 * 2 ^ (n-1)) by ring]

/-- C1: each logical device call makes at most 3 attempts; every non-final
attempt failed with a connection error or timeout (a received non-2xx
response — `httpError` — is never retried); the final attempt's outcome is
surfaced or re-raised unchanged; the sleeps follow
`wait_exponential(0.5, min=0.5, max=2)` — 0.5 s after the first failure,
doubling, capped at 2 s. -/
theorem C1_retry_policy {α : Type} (attempt : ℕ → AttemptResult α) :
    (1 ≤ (psuCall attempt).attemptsMade ∧ (psuCall attempt).attemptsMade ≤ 3)
    ∧ (∀ k, 1 ≤ k → k < (psuCall attempt).attemptsMade →
        ∃ e, attempt k = .exn e ∧ retryableExc e = true)
    ∧ ((psuCall attempt).result =
        match attempt (psuCall attempt).attemptsMade with
        | .ok v => .ok v
        | .exn e => .error e)
    ∧ ((psuCall attempt).waits =
        (List.range' 1 ((psuCall attempt).attemptsMade - 1)).map psuWait)
    ∧ psuWait 1 = 1 / 2 ∧ psuWait 2 = 1
    ∧ (∀ n, 1 ≤ n → psuWait (n + 1) = min (2 * psuWait n) 2)
    ∧ (∀ n, psuWait n ≤ 2) := by
  cases h1 : attempt 1 with
  | ok v =>
    have htr : psuCall attempt = ⟨1, [], .ok v⟩ := by simp [psuCall, retryLoop, h1]
    rw [htr]
    exact ⟨⟨by norm_num, by norm_num⟩, fun k hk1 hk2 => absurd (hk1.trans_lt hk2) (by norm_num),
      by simp [h1], by simp [List.range'], psuWait_one, psuWait_two, psuWait_doubling,
      psuWait_le_two⟩
  | exn e =>
    cases hr1 : retryableExc e with
    | false =>
      have htr : psuCall attempt = ⟨1, [], .error e⟩ := by
        simp [psuCall, retryLoop, h1, hr1]
      rw [htr]
      exact ⟨⟨by norm_num, by norm_num⟩, fun k hk1 hk2 => absurd (hk1.trans_lt hk2) (by norm_num),
        by simp [h1], by simp [List.range'], psuWait_one, psuWait_two, psuWait_doubling,
        psuWait_le_two⟩
    | true =>
      cases h2 : attempt 2 with
      | ok v =>
        have htr : psuCall attempt = ⟨2, [psuWait 1], .ok v⟩ := by
          simp [psuCall, retryLoop, h1, hr1, h2]
        rw [htr]
        refine ⟨⟨by norm_num, by norm_num⟩, ?_, by simp [h2], by simp [List.range'],
          psuWait_one, psuWait_two, psuWait_doubling, psuWait_le_two⟩
        intro k hk1 hk2
        have hk2b : k < 2 := hk2
        have hk : k = 1 := by omega
        exact hk ▸ ⟨e, h1, hr1⟩
      | exn e2 =>
        cases hr2 : retryableExc e2 with
        | false =>
          have htr : psuCall attempt = ⟨2, [psuWait 1], .error e2⟩ := by
            simp [psuCall, retryLoop, h1, hr1, h2, hr2]
          rw [htr]
          refine ⟨⟨by norm_num, by norm_num⟩, ?_, by simp [h2], by simp [List.range'],
            psuWait_one, psuWait_two, psuWait_doubling, psuWait_le_two⟩
          intro k hk1 hk2
          have hk2b : k < 2 := hk2
          have hk : k = 1 := by omega
          exact hk ▸ ⟨e, h1, hr1⟩
        | true =>
          cases h3 : attempt 3 with
          | ok v =>
            have htr : psuCall attempt = ⟨3, [psuWait 1, psuWait 2], .ok v⟩ := by
              simp [psuCall, retryLoop, h1, hr1, h2, hr2, h3]
            rw [htr]
            refine ⟨⟨by norm_num, by norm_num⟩, ?_, by simp [h3], by simp [List.range'],
              psuWait_one, psuWait_two, psuWait_doubling, psuWait_le_two⟩
            intro k hk1 hk2
            have hk2b : k < 3 := hk2
            have hk : k = 1 ∨ k = 2 := by omega
            rcases hk with hk | hk
            · exact hk ▸ ⟨e, h1, hr1⟩
            · exact hk ▸ ⟨e2, h2, hr2⟩
          | exn e3 =>
            have htr : psuCall attempt = ⟨3, [psuWait 1, psuWait 2], .error e3⟩ := by
              simp [psuCall, retryLoop, h1, hr1, h2, hr2, h3]
            rw [htr]
            refine ⟨⟨by norm_num, by norm_num⟩, ?_, by simp [h3], by simp [List.range'],
              psuWait_one, psuWait_two, psuWait_doubling, psuWait_le_two⟩
            intro k hk1 hk2
            have hk2b : k < 3 := hk2
            have hk : k = 1 ∨ k = 2 := by omega
            rcases hk with hk | hk
            · exact hk ▸ ⟨e, h1, hr1⟩
            · exact hk ▸ ⟨e2, h2, hr2⟩

/-- Witness for C1: three connection failures in a row produce 3 attempts
with sleeps 0.5 s then 1.0 s, and the last failure is re-raised. -/
theorem C1_witness :
    (psuCall (fun _ => AttemptResult.exn (α := Unit) PyErr.connectionError)).attemptsMade ≤ 3
    ∧ (psuCall (fun _ => AttemptResult.exn (α := Unit) PyErr.connectionError)).waits
        = [1 / 2, 1]
    ∧ (psuCall (fun _ => AttemptResult.exn (α := Unit) PyErr.connectionError)).result
        = .error .connectionError :=
  ⟨(C1_retry_policy (fun _ => AttemptResult.exn PyErr.connectionError)).1.2,
   by norm_num [psuCall, retryLoop, retryableExc, psuWait, wait_exponential],
   by norm_num [psuCall, retryLoop, retryableExc]⟩

/-- C2: `save(s)` immediately followed by `load()` (the load lands within
the 1-second cache window of the save) returns a record whose `voltage`,
`max_current` and `access` equal those of `s`, with `updated_at` newly
populated by the save-time stamp `⌊t1⌋`, which is at least the (whole
second of the) time `t0` just before the save since the clock is read
after `t0`. -/
theorem C2_save_load_roundtrip (t0 t1 t2 t3 u1 u2 : ℚ) (h : Heap) (st : StoreState) (r : ℕ)
    (hfresh : t3 - t2 < 1) (hmono : t0 ≤ t1) :
    dictGet ((load_state t3 u1 u2 (save_state t1 t2 h st r).1
        (save_state t1 t2 h st r).2).1.get
        (load_state t3 u1 u2 (save_state t1 t2 h st r).1 (save_state t1 t2 h st r).2).2.2)
        "voltage" = dictGet (h.get r) "voltage"
    ∧ dictGet ((load_state t3 u1 u2 (save_state t1 t2 h st r).1
        (save_state t1 t2 h st r).2).1.get
        (load_state t3 u1 u2 (save_state t1 t2 h st r).1 (save_state t1 t2 h st r).2).2.2)
        "max_current" = dictGet (h.get r) "max_current"
    ∧ dictGet ((load_state t3 u1 u2 (save_state t1 t2 h st r).1
        (save_state t1 t2 h st r).2).1.get
        (load_state t3 u1 u2 (save_state t1 t2 h st r).1 (save_state t1 t2 h st r).2).2.2)
        "access" = dictGet (h.get r) "access"
    ∧ dictGet ((load_state t3 u1 u2 (save_state t1 t2 h st r).1
        (save_state t1 t2 h st r).2).1.get
        (load_state t3 u1 u2 (save_state t1 t2 h st r).1 (save_state t1 t2 h st r).2).2.2)
        "updated_at" = some (.tstamp ⌊t1⌋)
    ∧ ⌊t0⌋ ≤ ⌊t1⌋ := by
  have hsv2 : (save_state t1 t2 h st r).2 =
      ⟨some (dictSet (h.get r) "updated_at" (.tstamp ⌊t1⌋)),
       dictSet (h.get r) "updated_at" (.tstamp ⌊t1⌋), t2⟩ := save_state_store t1 t2 h st r
  have hload : load_state t3 u1 u2 (save_state t1 t2 h st r).1 (save_state t1 t2 h st r).2
      = (((save_state t1 t2 h st r).1.alloc
            (dictSet (h.get r) "updated_at" (.tstamp ⌊t1⌋))).1,
         (save_state t1 t2 h st r).2,
         ((save_state t1 t2 h st r).1.alloc
            (dictSet (h.get r) "updated_at" (.tstamp ⌊t1⌋))).2) := by
    rw [hsv2]
    unfold load_state
    rw [if_pos ⟨hfresh, dictSet_ne_nil _ _ _⟩]
  rw [hload]
  simp only [Heap.get_alloc_new]
  refine ⟨?_, ?_, ?_, ?_, Int.floor_le_floor hmono⟩
  · exact dictGet_dictSet_ne _ _ _ _ (by decide)
  · exact dictGet_dictSet_ne _ _ _ _ (by decide)
  · exact dictGet_dictSet_ne _ _ _ _ (by decide)
  · exact dictGet_dictSet_self _ _ _

/-- Witness for C2 at a concrete record and clock. -/
theorem C2_witness :
    ((10 : ℚ) - 10 < 1 ∧ (10 : ℚ) ≤ 10)
    ∧ dictGet ((load_state 10 10 10
        (save_state 10 10 ⟨[[("voltage", JVal.num 54), ("max_current", JVal.num 6),
            ("access", JVal.str "1")]]⟩ ⟨none, [], 0⟩ 0).1
        (save_state 10 10 ⟨[[("voltage", JVal.num 54), ("max_current", JVal.num 6),
            ("access", JVal.str "1")]]⟩ ⟨none, [], 0⟩ 0).2).1.get
        (load_state 10 10 10
        (save_state 10 10 ⟨[[("voltage", JVal.num 54), ("max_current", JVal.num 6),
            ("access", JVal.str "1")]]⟩ ⟨none, [], 0⟩ 0).1
        (save_state 10 10 ⟨[[("voltage", JVal.num 54), ("max_current", JVal.num 6),
            ("access", JVal.str "1")]]⟩ ⟨none, [], 0⟩ 0).2).2.2) "voltage"
      = some (JVal.num 54) := by
  constructor
  · norm_num
  · rw [(C2_save_load_roundtrip 10 10 10 10 10 10
      ⟨[[("voltage", JVal.num 54), ("max_current", JVal.num 6), ("access", JVal.str "1")]]⟩
      ⟨none, [], 0⟩ 0 (by norm_num) (by norm_num)).1]
    decide

/-- C7 counterexample: on first access (no durable record, empty cache) at
time 5, the persisted record carries `updated_at = 5`, but the record
returned — and the one left in the cache — is the unstamped synthesized
dict (`updated_at = None`), so the returned/cached record does not equal
the record just persisted. -/
theorem C7_counterexample :
    (load_state 5 5 5 ⟨[]⟩ ⟨none, [], 0⟩).2.1.fileContents
      = some [("voltage", .null), ("max_current", .null), ("access", .str "0"),
              ("updated_at", .tstamp 5)]
    ∧ (load_state 5 5 5 ⟨[]⟩ ⟨none, [], 0⟩).1.get
        (load_state 5 5 5 ⟨[]⟩ ⟨none, [], 0⟩).2.2 = defaultRecord
    ∧ (load_state 5 5 5 ⟨[]⟩ ⟨none, [], 0⟩).2.1.cache = defaultRecord
    ∧ defaultRecord ≠ [("voltage", .null), ("max_current", .null), ("access", .str "0"),
              ("updated_at", .tstamp 5)] := by
  refine ⟨?_, ?_, ?_, by decide⟩ <;>
    · norm_num [load_state, save_state, Heap.alloc, Heap.get, Heap.setObj, defaultRecord,
        dictSet, List.getD]
      try decide

/-- C7 amended: on first access with no durable record, `load_state`
synthesizes the all-default record and immediately persists a stamped copy
(whose `updated_at` is the persist-time stamp), but returns and caches the
unstamped synthesized record itself; returned, cached and persisted records
agree on `voltage`, `max_current` and `access`, and differ exactly in
`updated_at` (`None` in the returned/cached record, the persist-time stamp
in the durable one). -/
theorem C7_amended_bootstrap (now t1 t2 : ℚ) (h : Heap) (st : StoreState)
    (hf : st.fileContents = none) (hc : st.cache = []) :
    (load_state now t1 t2 h st).1.get (load_state now t1 t2 h st).2.2 = defaultRecord
    ∧ (load_state now t1 t2 h st).2.1.cache = defaultRecord
    ∧ (load_state now t1 t2 h st).2.1.fileContents
        = some (dictSet defaultRecord "updated_at" (.tstamp ⌊t1⌋))
    ∧ (load_state now t1 t2 h st).2.1.cacheTime = now
    ∧ dictGet defaultRecord "updated_at" = some .null
    ∧ dictGet (dictSet defaultRecord "updated_at" (.tstamp ⌊t1⌋)) "updated_at"
        = some (.tstamp ⌊t1⌋)
    ∧ dictGet (dictSet defaultRecord "updated_at" (.tstamp ⌊t1⌋)) "voltage"
        = dictGet defaultRecord "voltage"
    ∧ dictGet (dictSet defaultRecord "updated_at" (.tstamp ⌊t1⌋)) "max_current"
        = dictGet defaultRecord "max_current"
    ∧ dictGet (dictSet defaultRecord "updated_at" (.tstamp ⌊t1⌋)) "access"
        = dictGet defaultRecord "access" := by
  have hcond : ¬(now - st.cacheTime < 1 ∧ st.cache ≠ []) := by
    rw [hc]; simp
  have halloc2 : (h.alloc defaultRecord).2 < (h.alloc defaultRecord).1.objs.length := by
    rw [Heap.alloc_length]; simp [Heap.alloc]
  have hget : (save_state t1 t2 (h.alloc defaultRecord).1 st (h.alloc defaultRecord).2).1.get
      (h.alloc defaultRecord).2 = defaultRecord := by
    rw [save_state_heap_get _ _ _ _ _ _ halloc2, Heap.get_alloc_new]
  have hload : load_state now t1 t2 h st
      = (((save_state t1 t2 (h.alloc defaultRecord).1 st (h.alloc defaultRecord).2).1.alloc
            ((save_state t1 t2 (h.alloc defaultRecord).1 st (h.alloc defaultRecord).2).1.get
              (h.alloc defaultRecord).2)).1,
         { (save_state t1 t2 (h.alloc defaultRecord).1 st (h.alloc defaultRecord).2).2 with
            cache := (save_state t1 t2 (h.alloc defaultRecord).1 st
              (h.alloc defaultRecord).2).1.get (h.alloc defaultRecord).2,
            cacheTime := now },
         ((save_state t1 t2 (h.alloc defaultRecord).1 st (h.alloc defaultRecord).2).1.alloc
            ((save_state t1 t2 (h.alloc defaultRecord).1 st (h.alloc defaultRecord).2).1.get
              (h.alloc defaultRecord).2)).2) := by
    unfold load_state
    rw [if_neg hcond, hf]
  rw [hload]
  refine ⟨by simp [Heap.get_alloc_new, hget], by simp [hget],
    by simp [save_state_store, Heap.get_alloc_new], by simp, by decide,
    dictGet_dictSet_self _ _ _, dictGet_dictSet_ne _ _ _ _ (by decide),
    dictGet_dictSet_ne _ _ _ _ (by decide), dictGet_dictSet_ne _ _ _ _ (by decide)⟩

/-- Witness for C7's amended claim on a concrete first access. -/
theorem C7_amended_witness :
    ((⟨none, [], 0⟩ : StoreState).fileContents = none
      ∧ (⟨none, [], 0⟩ : StoreState).cache = [])
    ∧ (load_state 5 5 5 ⟨[]⟩ ⟨none, [], 0⟩).2.1.cache = defaultRecord :=
  ⟨⟨rfl, rfl⟩, (C7_amended_bootstrap 5 5 5 ⟨[]⟩ ⟨none, [], 0⟩ rfl rfl).2.1⟩
theorem tryStep_ok_shape (env : ExecEnv) (idx : ℕ) (step : JObj) (s s' : ExecSt)
    (entry : StepResult) (h : tryStep env idx step s = (s', .inr entry)) :
    entry.step = idx ∧ entry.ok = true := by
  cases hv2 : stepFloat step "voltage" with
  | error e => simp [tryStep, hv2] at h
  | ok v2 =>
    cases hi2 : stepFloat step "max_current" with
    | error e => simp [tryStep, hv2, hi2] at h
    | ok i2 =>
      cases hval : validate_params v2 i2 with
      | error e => simp [tryStep, hv2, hi2, hval] at h
      | ok u =>
        cases u
        cases hpost : env.post (payload_for_device env.balancedAmpEnv v2 i2
            (pyStr ((dictGet step "access").getD (.str "0")))) with
        | error e => simp [tryStep, hv2, hi2, hval, hpost] at h
        | ok resp =>
          have h2 := congrArg Prod.snd h
          simp only [tryStep, hv2, hi2, hval, hpost] at h2
          injection h2 with h3
          rw [← h3]
          exact ⟨rfl, rfl⟩

theorem runSeq_props (env : ExecEnv) (seq : List JObj) :
    ∀ (idx : ℕ) (s : ExecSt) (l : List StepResult),
      (runSeq env seq idx s).2 = .ok l →
      l.map StepResult.step = List.range' idx l.length
      ∧ (∀ e ∈ l.dropLast, e.ok = true)
      ∧ (∀ en, l.getLast? = some en → en.ok = false →
          runSeq env seq idx s = runSeq env (List.take l.length seq) idx s) := by
  induction seq with
  | nil =>
    intro idx s l h
    replace h : Except.ok ([] : List StepResult) = Except.ok l := h
    injection h with h
    subst h
    refine ⟨by simp [List.range'], by simp, ?_⟩
    intro en hen
    simp at hen
  | cons step rest ih =>
    intro idx s l h
    rcases htry : tryStep env idx step s with ⟨s1, out⟩
    cases out with
    | inl e =>
      have hrun : runSeq env (step :: rest) idx s = (s1, .ok [mkFailEntry idx e]) := by
        simp [runSeq, htry]
      rw [hrun] at h
      replace h : Except.ok [mkFailEntry idx e] = Except.ok l := h
      injection h with h
      subst h
      refine ⟨by simp [mkFailEntry, List.range'], by simp, ?_⟩
      intro en hen hok
      have hlen : List.take ([mkFailEntry idx e].length) (step :: rest) = [step] := by simp
      rw [hlen, hrun]
      simp [runSeq, htry]
    | inr entry =>
      cases hdel : stepDelay step with
      | error e =>
        have hrun : runSeq env (step :: rest) idx s = (s1, .error e) := by
          simp [runSeq, htry, hdel]
        rw [hrun] at h
        replace h : Except.error e = Except.ok l := h
        exact absurd h (by simp)
      | ok d =>
        rcases hrec : runSeq env rest (idx + 1) s1 with ⟨s2, res2⟩
        cases res2 with
        | error e2 =>
          have hrun : runSeq env (step :: rest) idx s = (s2, .error e2) := by
            simp [runSeq, htry, hdel, hrec]
          rw [hrun] at h
          replace h : Except.error e2 = Except.ok l := h
          exact absurd h (by simp)
        | ok l2 =>
          have hrun : runSeq env (step :: rest) idx s = (s2, .ok (entry :: l2)) := by
            simp [runSeq, htry, hdel, hrec]
          rw [hrun] at h
          replace h : Except.ok (entry :: l2) = Except.ok l := h
          injection h with h
          subst h
          obtain ⟨hmap2, hdrop2, hstop2⟩ := ih (idx + 1) s1 l2 (by rw [hrec])
          have hshape := tryStep_ok_shape env idx step s s1 entry htry
          refine ⟨?_, ?_, ?_⟩
          · rw [List.map_cons, hshape.1, List.length_cons, hmap2]
            exact (List.range'_succ idx l2.length 1).symm
          · intro e2 he
            cases l2 with
            | nil => simp at he
            | cons b t =>
              rw [List.dropLast_cons_of_ne_nil (by simp)] at he
              rcases List.mem_cons.mp he with he | he
              · rw [he]; exact hshape.2
              · exact hdrop2 e2 he
          · intro en hen hok
            cases l2 with
            | nil =>
              replace hen : some entry = some en := hen
              injection hen with hen
              rw [← hen, hshape.2] at hok
              exact absurd hok (by simp)
            | cons b t =>
              have hen2 : (b :: t).getLast? = some en := by
                rw [← hen, List.getLast?_cons_cons]
              have hstop := hstop2 en hen2 hok
              have htake : List.take ((entry :: b :: t).length) (step :: rest)
                  = step :: List.take ((b :: t).length) rest := by
                rw [List.length_cons, List.take_succ_cons]
              rw [htake, hrun]
              have hrec2 : runSeq env (List.take ((b :: t).length) rest) (idx + 1) s1
                  = (s2, .ok (b :: t)) := by
                rw [← hstop, hrec]
              simp only [List.length_cons] at hrec2
              simp [runSeq, htry, hdel, hrec2]

set_option maxHeartbeats 1000000 in
/-- C3: the executor runs steps strictly in order — the result entries
carry consecutive 1-based indices; every entry before the last is a
success; when the last entry is a failure the whole run equals the run of
just the executed prefix (no later step has any effect, and the persisted
effects of earlier steps remain). For the concrete sequence
`[{v:54, i:6, delay:0}, {v:-1, i:6}]` step 1 succeeds, step 2 fails with
the voltage `ValidationError`, processing stops, and the returned state
holds step 1's values. -/
theorem C3_sequence_failfast :
    (∀ (env : ExecEnv) (seq : List JObj) (idx : ℕ) (s : ExecSt) (l : List StepResult),
        (runSeq env seq idx s).2 = .ok l →
        l.map StepResult.step = List.range' idx l.length
        ∧ (∀ e ∈ l.dropLast, e.ok = true)
        ∧ (∀ en, l.getLast? = some en → en.ok = false →
            runSeq env seq idx s = runSeq env (List.take l.length seq) idx s))
    ∧ (set_sequence ⟨fun _ => .ok "OK", fun n => (n : ℚ), 1⟩ ⟨⟨[]⟩, ⟨none, [], 0⟩, [], [], 0⟩
        (.steps [[("voltage", JVal.num 54), ("max_current", JVal.num 6), ("delay", JVal.int 0)],
                 [("voltage", JVal.num (-1)), ("max_current", JVal.num 6)]])).2
      = SeqResponse.ok
          [⟨1, true, some [("voltageValue", .str "54.0"), ("currentValue", .str "6.00"),
              ("accessibilityStatus", .str "0"), ("balancedVoltage", .str "54.0"),
              ("balancedCurrent", .str "1.0"), ("mode", .str "2")], some "OK", none⟩,
           ⟨2, false, none, none, some (.valueErrorRange "Voltage" (-1) 0 100)⟩]
          [("voltage", .num 54), ("max_current", .num 6), ("access", .str "0"),
           ("updated_at", .tstamp 0)] := by
  constructor
  · exact fun env seq idx s l h => runSeq_props env seq idx s l h
  · iterate 6
      try norm_num [set_sequence, runSeq, tryStep, stepFloat, stepDelay, pyFloat, pyStr,
        dictGet, validate_params, VOLT_MIN, VOLT_MAX, CURR_MIN, CURR_MAX, payload_for_device,
        _clamp_balanced_amp, formatFixed, pyRound, save_state, load_state, Heap.alloc,
        Heap.get, Heap.setObj, setdefault4, setdefaultD, dictSet, mkOkEntry, mkFailEntry,
        List.getD, List.find?_cons, List.find?_nil, Option.getD]
      try simp [set_sequence, runSeq, tryStep, stepFloat, stepDelay, pyFloat, pyStr,
        dictGet, validate_params, VOLT_MIN, VOLT_MAX, CURR_MIN, CURR_MAX, payload_for_device,
        _clamp_balanced_amp, formatFixed, pyRound, save_state, load_state, Heap.alloc,
        Heap.get, Heap.setObj, setdefault4, setdefaultD, dictSet, mkOkEntry, mkFailEntry,
        List.getD, List.find?_cons, List.find?_nil, Option.getD]
    try decide

/-- Witness for C3's general part at a concrete (empty) run. -/
theorem C3_witness :
    (runSeq ⟨fun _ => .ok "OK", fun n => (n : ℚ), 1⟩ [] 1
        ⟨⟨[]⟩, ⟨none, [], 0⟩, [], [], 0⟩).2 = .ok []
    ∧ List.map StepResult.step [] = List.range' 1 (List.length ([] : List StepResult)) :=
  ⟨rfl, (C3_sequence_failfast.1 ⟨fun _ => .ok "OK", fun n => (n : ℚ), 1⟩ [] 1
      ⟨⟨[]⟩, ⟨none, [], 0⟩, [], [], 0⟩ [] rfl).1⟩

set_option maxHeartbeats 1000000 in
/-- C8 counterexample: a step whose `delay` field is `None` completes its
`try` block successfully, but `float(step.get("delay", 0))` sits outside
the `try`/`except` and raises `TypeError`, which escapes the executor: the
endpoint produces no results trace at all, contradicting the claim that no
step's error escapes as an unhandled exception. -/
theorem C8_counterexample :
    (set_sequence ⟨fun _ => .ok "OK", fun n => (n : ℚ), 1⟩ ⟨⟨[]⟩, ⟨none, [], 0⟩, [], [], 0⟩
        (.steps [[("voltage", JVal.num 54), ("max_current", JVal.num 6),
                  ("delay", JVal.null)]])).2
      = .unhandled .typeError := by
  iterate 6
    try norm_num [set_sequence, runSeq, tryStep, stepFloat, stepDelay, pyFloat, pyStr,
      dictGet, validate_params, VOLT_MIN, VOLT_MAX, CURR_MIN, CURR_MAX, payload_for_device,
      _clamp_balanced_amp, formatFixed, pyRound, save_state, load_state, Heap.alloc,
      Heap.get, Heap.setObj, setdefault4, setdefaultD, dictSet, mkOkEntry, mkFailEntry,
      List.getD, List.find?_cons, List.find?_nil, Option.getD]
    try simp [set_sequence, runSeq, tryStep, stepFloat, stepDelay, pyFloat, pyStr,
      dictGet, validate_params, VOLT_MIN, VOLT_MAX, CURR_MIN, CURR_MAX, payload_for_device,
      _clamp_balanced_amp, formatFixed, pyRound, save_state, load_state, Heap.alloc,
      Heap.get, Heap.setObj, setdefault4, setdefaultD, dictSet, mkOkEntry, mkFailEntry,
      List.getD, List.find?_cons, List.find?_nil, Option.getD]
  try decide

/-- C8 amended: every exception raised inside a step's `try` block is
captured as a failed entry and the loop returns a results list — whenever
each step's `delay` value converts to a float, no exception escapes the
executor; an unparseable delay on a successful step, however, raises
outside the `try` block and aborts the endpoint (the counterexample). -/
theorem C8_amended_captured_inside_try (env : ExecEnv) (seq : List JObj)
    (hdel : ∀ step ∈ seq, ∃ d, stepDelay step = Except.ok d) (idx : ℕ) (s : ExecSt) :
    ∃ l, (runSeq env seq idx s).2 = .ok l := by
  revert hdel
  induction seq generalizing idx s with
  | nil => exact fun _ => ⟨[], rfl⟩
  | cons step rest ih =>
    intro hdel
    rcases htry : tryStep env idx step s with ⟨s1, out⟩
    cases out with
    | inl e => exact ⟨[mkFailEntry idx e], by simp [runSeq, htry]⟩
    | inr entry =>
      obtain ⟨d, hd⟩ := hdel step (List.mem_cons_self step rest)
      obtain ⟨l2, hl2⟩ := ih (idx + 1) s1 (fun st hst => hdel st (List.mem_cons_of_mem _ hst))
      rcases hrec : runSeq env rest (idx + 1) s1 with ⟨s2, r2⟩
      rw [hrec] at hl2
      replace hl2 : r2 = Except.ok l2 := hl2
      subst hl2
      exact ⟨entry :: l2, by simp [runSeq, htry, hd, hrec]⟩

/-- Witness for C8's amended claim on a one-step sequence with no delay
field (the default delay `0` parses). -/
theorem C8_witness :
    (∀ step ∈ [[("voltage", JVal.num 54), ("max_current", JVal.num 6)]],
      ∃ d, stepDelay step = Except.ok d)
    ∧ ∃ l, (runSeq ⟨fun _ => .ok "OK", fun n => (n : ℚ), 1⟩
        [[("voltage", JVal.num 54), ("max_current", JVal.num 6)]] 1
        ⟨⟨[]⟩, ⟨none, [], 0⟩, [], [], 0⟩).2 = .ok l := by
  have hdel : ∀ step ∈ [[("voltage", JVal.num 54), ("max_current", JVal.num 6)]],
      ∃ d, stepDelay step = Except.ok d := by
    intro step hstep
    rw [List.mem_singleton] at hstep
    subst hstep
    exact ⟨0, by simp [stepDelay, dictGet, pyFloat, List.find?_cons, Option.getD]⟩
  exact ⟨hdel, C8_amended_captured_inside_try _ _ hdel 1 _⟩
